import Mathlib

/-!
Verification development for the reposting bot in `main.py`.

The file embeds the coordination logic of the bot as executable Lean
definitions and proves the documented properties about them:

* `wait_for_decision` : the approval-flag polling loop;
* `process_telegram_update` : the inbound button-click handler that writes
  decisions into flag files;
* `upload_reel` : the upload wrapper that always consumes its input file;
* `scheduled_job` / `daily_download_job` : the decide-and-post job and the
  pool-refresh job;
* `download_reels` : the pool refresh itself;
* `robust_login` : the retried login.

Time is modelled in whole seconds.  A flag file as seen by the polling
loop at a given second is described by `FileView`; the environment
function `env : Nat → FileView` gives, for each second of elapsed time,
what a read of the flag file at that instant would observe.  The only
other writer rewrites the file in place, and the poller itself deletes
the file only at the instant it returns, so this captures the behaviour
of the single polling process.
-/

namespace Bot

set_option maxHeartbeats 1000000

/-- What a single poll of the flag file observes: the file is absent, the
file exists but reading or JSON-parsing it raises (`JSONDecodeError` or
`IOError` in the source), or the file parses to a record whose optional
`decision` field is given. -/
inductive FileView where
  | absent
  | unreadable
  | record (decision : Option Bool)
deriving DecidableEq

def fileExists (v : FileView) : Bool :=
  match v with
  | .absent => false
  | _ => true

/-- Effect of `os.remove` on the flag file. -/
def removeFlag (_ : FileView) : FileView := .absent

/-- Outcome of a `wait_for_decision` call: the returned value (`none`
models the Python `None` timeout return), the elapsed time at which the
call returns, whether the flag file still exists at that instant after
the call, and the list of instants at which the call performed an
`os.remove`. -/
structure WFDResult where
  result : Option Bool
  retTime : Nat
  fileAfter : Bool
  removes : List Nat
deriving DecidableEq

/-- The polling loop of `wait_for_decision` in the source, one
constructor case per branch: while elapsed time is below the timeout,
poll the file; an absent file or a parsed record without a `decision`
field sleeps 5 seconds and retries; an unreadable file sleeps 1 second
and retries; a record with a `decision` field is removed and its value
returned.  Once the timeout is reached the file is removed if present
and `none` is returned. -/
def wfdLoop (env : Nat → FileView) (T : Nat) (t : Nat) : WFDResult :=
  if _h : t < T then
    match env t with
    | .record (some d) =>
        ⟨some d, t, fileExists (removeFlag (env t)), [t]⟩
    | .unreadable => wfdLoop env T (t + 1)
    | .absent => wfdLoop env T (t + 5)
    | .record none => wfdLoop env T (t + 5)
  else
    ⟨none, t,
      fileExists (if fileExists (env t) then removeFlag (env t) else env t),
      if fileExists (env t) then [t] else []⟩
termination_by T - t
decreasing_by
  all_goals omega

/-- `wait_for_decision(flag_file, timeout)` starts polling at elapsed
time 0. -/
def wait_for_decision (env : Nat → FileView) (T : Nat) : WFDResult :=
  wfdLoop env T 0

theorem fileExists_removeFlag (v : FileView) : fileExists (removeFlag v) = false := rfl

theorem wfdLoop_stop (env : Nat → FileView) (T t : Nat) (h : ¬ t < T) :
    wfdLoop env T t =
      ⟨none, t,
        fileExists (if fileExists (env t) then removeFlag (env t) else env t),
        if fileExists (env t) then [t] else []⟩ := by
  unfold wfdLoop
  rw [dif_neg h]

theorem wfdLoop_dec (env : Nat → FileView) (T t : Nat) (d : Bool)
    (h : t < T) (hv : env t = .record (some d)) :
    wfdLoop env T t = ⟨some d, t, fileExists (removeFlag (env t)), [t]⟩ := by
  unfold wfdLoop
  rw [dif_pos h, hv]

theorem wfdLoop_absent (env : Nat → FileView) (T t : Nat)
    (h : t < T) (hv : env t = .absent) :
    wfdLoop env T t = wfdLoop env T (t + 5) := by
  conv_lhs => unfold wfdLoop
  rw [dif_pos h, hv]

theorem wfdLoop_unreadable (env : Nat → FileView) (T t : Nat)
    (h : t < T) (hv : env t = .unreadable) :
    wfdLoop env T t = wfdLoop env T (t + 1) := by
  conv_lhs => unfold wfdLoop
  rw [dif_pos h, hv]

theorem wfdLoop_recnone (env : Nat → FileView) (T t : Nat)
    (h : t < T) (hv : env t = .record none) :
    wfdLoop env T t = wfdLoop env T (t + 5) := by
  conv_lhs => unfold wfdLoop
  rw [dif_pos h, hv]

/-- If no poll ever observes a `decision` field, the loop returns `none`
and leaves no flag file behind, from any starting instant. -/
theorem wfd_nodecision (env : Nat → FileView) (T : Nat)
    (hnd : ∀ t b, env t ≠ .record (some b)) :
    ∀ t, (wfdLoop env T t).result = none ∧ (wfdLoop env T t).fileAfter = false := by
  suffices H : ∀ n t, T - t ≤ n →
      (wfdLoop env T t).result = none ∧ (wfdLoop env T t).fileAfter = false from
    fun t => H (T - t) t le_rfl
  intro n
  induction n with
  | zero =>
    intro t ht
    have hT : ¬ t < T := by omega
    rw [wfdLoop_stop env T t hT]
    refine ⟨rfl, ?_⟩
    cases hfe : fileExists (env t) <;> simp [hfe, fileExists_removeFlag]
  | succ n ih =>
    intro t ht
    by_cases h : t < T
    · cases hv : env t with
      | absent =>
        rw [wfdLoop_absent env T t h hv]
        exact ih (t + 5) (by omega)
      | unreadable =>
        rw [wfdLoop_unreadable env T t h hv]
        exact ih (t + 1) (by omega)
      | record d =>
        cases d with
        | none =>
          rw [wfdLoop_recnone env T t h hv]
          exact ih (t + 5) (by omega)
        | some b => exact absurd hv (hnd t b)
    · rw [wfdLoop_stop env T t h]
      refine ⟨rfl, ?_⟩
      cases hfe : fileExists (env t) <;> simp [hfe, fileExists_removeFlag]

/-- If no poll ever observes a `decision` field, the loop gives up no
earlier than the timeout and at most 4 seconds after it (the final sleep
before the failing guard check is at most 5 seconds, taken from an
instant strictly below the timeout). -/
theorem wfd_nodecision_time (env : Nat → FileView) (T : Nat)
    (hnd : ∀ t b, env t ≠ .record (some b)) :
    ∀ t, t ≤ T → T ≤ (wfdLoop env T t).retTime ∧ (wfdLoop env T t).retTime ≤ T + 4 := by
  suffices H : ∀ n t, T - t ≤ n → t ≤ T →
      T ≤ (wfdLoop env T t).retTime ∧ (wfdLoop env T t).retTime ≤ T + 4 from
    fun t => H (T - t) t le_rfl
  intro n
  induction n with
  | zero =>
    intro t hn htT
    have hT : ¬ t < T := by omega
    rw [wfdLoop_stop env T t hT]
    constructor <;> simp <;> omega
  | succ n ih =>
    intro t hn htT
    by_cases h : t < T
    · cases hv : env t with
      | absent =>
        rw [wfdLoop_absent env T t h hv]
        by_cases h5 : t + 5 ≤ T
        · exact ih (t + 5) (by omega) h5
        · have hT5 : ¬ t + 5 < T := by omega
          rw [wfdLoop_stop env T (t + 5) hT5]
          constructor <;> simp <;> omega
      | unreadable =>
        rw [wfdLoop_unreadable env T t h hv]
        exact ih (t + 1) (by omega) (by omega)
      | record d =>
        cases d with
        | none =>
          rw [wfdLoop_recnone env T t h hv]
          by_cases h5 : t + 5 ≤ T
          · exact ih (t + 5) (by omega) h5
          · have hT5 : ¬ t + 5 < T := by omega
            rw [wfdLoop_stop env T (t + 5) hT5]
            constructor <;> simp <;> omega
        | some b => exact absurd hv (hnd t b)
    · rw [wfdLoop_stop env T t h]
      constructor <;> simp <;> omega

/-- With no decision ever observed, no unreadable poll and a timeout
that is a multiple of the 5-second poll period, the loop gives up at
exactly the timeout. -/
theorem wfd_nodecision_exact (env : Nat → FileView) (T : Nat)
    (hnd : ∀ t b, env t ≠ .record (some b))
    (hur : ∀ t, env t ≠ .unreadable) (hdvd : 5 ∣ T) :
    ∀ t, t ≤ T → 5 ∣ t → (wfdLoop env T t).retTime = T := by
  suffices H : ∀ n t, T - t ≤ n → t ≤ T → 5 ∣ t → (wfdLoop env T t).retTime = T from
    fun t => H (T - t) t le_rfl
  intro n
  induction n with
  | zero =>
    intro t hn htT _
    have hT : ¬ t < T := by omega
    rw [wfdLoop_stop env T t hT]
    simp
    omega
  | succ n ih =>
    intro t hn htT hdt
    by_cases h : t < T
    · have h5 : t + 5 ≤ T := by omega
      cases hv : env t with
      | absent =>
        rw [wfdLoop_absent env T t h hv]
        exact ih (t + 5) (by omega) h5 (by omega)
      | unreadable => exact absurd hv (hur t)
      | record d =>
        cases d with
        | none =>
          rw [wfdLoop_recnone env T t h hv]
          exact ih (t + 5) (by omega) h5 (by omega)
        | some b => exact absurd hv (hnd t b)
    · rw [wfdLoop_stop env T t h]
      simp
      omega

/-- If from instant `t0` on the flag file always parses with its
`decision` field set to `d`, no earlier poll observes any decision, and
the write instant precedes the timeout by at least one full 5-second
poll period, then the loop (started anywhere at or before `t0 + 4`)
observes the decision before the timeout, removes the file, and returns
`d`. -/
theorem wfd_sees_decision (env : Nat → FileView) (T t0 : Nat) (d : Bool)
    (hafter : ∀ s, t0 ≤ s → env s = .record (some d))
    (hbefore : ∀ s b, s < t0 → env s ≠ .record (some b))
    (hT : t0 + 5 ≤ T) :
    ∀ t, t ≤ t0 + 4 →
      (wfdLoop env T t).result = some d ∧ (wfdLoop env T t).fileAfter = false ∧
      (wfdLoop env T t).retTime < T := by
  suffices H : ∀ n t, t0 + 4 - t ≤ n → t ≤ t0 + 4 →
      (wfdLoop env T t).result = some d ∧ (wfdLoop env T t).fileAfter = false ∧
      (wfdLoop env T t).retTime < T from
    fun t => H (t0 + 4 - t) t le_rfl
  intro n
  induction n with
  | zero =>
    intro t hn ht
    have ht0 : t0 ≤ t := by omega
    have h : t < T := by omega
    have hv := hafter t ht0
    rw [wfdLoop_dec env T t d h hv]
    exact ⟨rfl, by simp [fileExists_removeFlag], show t < T by omega⟩
  | succ n ih =>
    intro t hn ht
    have h : t < T := by omega
    by_cases ht0 : t0 ≤ t
    · have hv := hafter t ht0
      rw [wfdLoop_dec env T t d h hv]
      exact ⟨rfl, by simp [fileExists_removeFlag], show t < T by omega⟩
    · have hlt : t < t0 := by omega
      cases hv : env t with
      | absent =>
        rw [wfdLoop_absent env T t h hv]
        exact ih (t + 5) (by omega) (by omega)
      | unreadable =>
        rw [wfdLoop_unreadable env T t h hv]
        exact ih (t + 1) (by omega) (by omega)
      | record dd =>
        cases dd with
        | none =>
          rw [wfdLoop_recnone env T t h hv]
          exact ih (t + 5) (by omega) (by omega)
        | some b => exact absurd hv (hbefore t b hlt)

/-- The loop never returns at an instant earlier than the one it was
started at. -/
theorem wfd_retTime_ge (env : Nat → FileView) (T : Nat) :
    ∀ t, t ≤ (wfdLoop env T t).retTime := by
  suffices H : ∀ n t, T - t ≤ n → t ≤ (wfdLoop env T t).retTime from
    fun t => H (T - t) t le_rfl
  intro n
  induction n with
  | zero =>
    intro t hn
    have hT : ¬ t < T := by omega
    rw [wfdLoop_stop env T t hT]
  | succ n ih =>
    intro t hn
    by_cases h : t < T
    · cases hv : env t with
      | absent =>
        rw [wfdLoop_absent env T t h hv]
        by_cases h5 : t + 5 ≤ T
        · exact le_trans (by omega) (ih (t + 5) (by omega))
        · rw [wfdLoop_stop env T (t + 5) (by omega)]
          simp
      | unreadable =>
        rw [wfdLoop_unreadable env T t h hv]
        exact le_trans (by omega) (ih (t + 1) (by omega))
      | record d =>
        cases d with
        | none =>
          rw [wfdLoop_recnone env T t h hv]
          by_cases h5 : t + 5 ≤ T
          · exact le_trans (by omega) (ih (t + 5) (by omega))
          · rw [wfdLoop_stop env T (t + 5) (by omega)]
            simp
        | some b =>
          rw [wfdLoop_dec env T t b h hv]
    · rw [wfdLoop_stop env T t h]

/-- The only `os.remove` a call can perform happens at the instant it
returns. -/
theorem wfd_removes_shape (env : Nat → FileView) (T : Nat) :
    ∀ t, (wfdLoop env T t).removes = [] ∨
      (wfdLoop env T t).removes = [(wfdLoop env T t).retTime] := by
  suffices H : ∀ n t, T - t ≤ n → ((wfdLoop env T t).removes = [] ∨
      (wfdLoop env T t).removes = [(wfdLoop env T t).retTime]) from
    fun t => H (T - t) t le_rfl
  intro n
  induction n with
  | zero =>
    intro t hn
    have hT : ¬ t < T := by omega
    rw [wfdLoop_stop env T t hT]
    cases hfe : fileExists (env t) <;> simp [hfe]
  | succ n ih =>
    intro t hn
    by_cases h : t < T
    · cases hv : env t with
      | absent =>
        rw [wfdLoop_absent env T t h hv]
        by_cases h5 : t + 5 ≤ T
        · exact ih (t + 5) (by omega)
        · rw [wfdLoop_stop env T (t + 5) (by omega)]
          cases hfe : fileExists (env (t + 5)) <;> simp [hfe]
      | unreadable =>
        rw [wfdLoop_unreadable env T t h hv]
        exact ih (t + 1) (by omega)
      | record d =>
        cases d with
        | none =>
          rw [wfdLoop_recnone env T t h hv]
          by_cases h5 : t + 5 ≤ T
          · exact ih (t + 5) (by omega)
          · rw [wfdLoop_stop env T (t + 5) (by omega)]
            cases hfe : fileExists (env (t + 5)) <;> simp [hfe]
        | some b =>
          rw [wfdLoop_dec env T t b h hv]
          simp
    · rw [wfdLoop_stop env T t h]
      cases hfe : fileExists (env t) <;> simp [hfe]

/-- Environment of the counterexample for claim C1: the flag file stays
absent until second 6, and from second 6 on it holds `decision: true`. -/
def envLateWrite : Nat → FileView :=
  fun t => if t < 6 then .absent else .record (some true)

/-- C1 counterexample: with a 7-second timeout, a flag file written with
`decision: true` at second 6 - strictly before the timeout elapses - is
never observed: the polls happen at seconds 0 and 5, the next guard
check at second 10 fails, and the call returns `none` rather than
`true`. -/
theorem wait_decision_late_write_missed :
    (∀ t, 6 ≤ t → envLateWrite t = .record (some true)) ∧ 6 < 7 ∧
      (wait_for_decision envLateWrite 7).result = none := by
  refine ⟨?_, by omega, ?_⟩
  · intro t ht
    unfold envLateWrite
    rw [if_neg (by omega)]
  · rw [wait_for_decision,
      wfdLoop_absent envLateWrite 7 0 (by omega) rfl,
      wfdLoop_absent envLateWrite 7 5 (by omega) rfl,
      wfdLoop_stop envLateWrite 7 10 (by omega)]

/-- C1 (amended): if the flag file holds `decision` set to `d` from some
instant `t0` on, no earlier poll observes any decision, and the write
leads the timeout by at least one full 5-second poll period, then
`wait_for_decision` returns `d` strictly before the timeout and the flag
file no longer exists afterward. -/
theorem wait_decision_written_before_timeout (env : Nat → FileView)
    (T t0 : Nat) (d : Bool)
    (hafter : ∀ s, t0 ≤ s → env s = .record (some d))
    (hbefore : ∀ s b, s < t0 → env s ≠ .record (some b))
    (hT : t0 + 5 ≤ T) :
    (wait_for_decision env T).result = some d ∧
    (wait_for_decision env T).fileAfter = false ∧
    (wait_for_decision env T).retTime < T := by
  exact wfd_sees_decision env T t0 d hafter hbefore hT 0 (by omega)

/-- Environment in which the flag file holds `decision: true` from the
start. -/
def envAllTrue : Nat → FileView := fun _ => .record (some true)

theorem wait_decision_written_before_timeout_witness :
    (wait_for_decision envAllTrue 5).result = some true ∧
    (wait_for_decision envAllTrue 5).fileAfter = false ∧
    (wait_for_decision envAllTrue 5).retTime < 5 :=
  wait_decision_written_before_timeout envAllTrue 5 0 true
    (fun _ _ => rfl) (fun s _ hs => absurd hs (Nat.not_lt_zero s)) (by omega)

/-- Environment in which the flag file never exists. -/
def envAbsent : Nat → FileView := fun _ => .absent

/-- C2 counterexample: with a 7-second timeout and a flag file that is
never written, the call returns `none` at elapsed time 10, not at
exactly the caller-supplied timeout 7: the guard is only re-checked on
the 5-second poll grid. -/
theorem wait_timeout_not_exact :
    (wait_for_decision envAbsent 7).result = none ∧
      (wait_for_decision envAbsent 7).retTime = 10 := by
  rw [wait_for_decision,
    wfdLoop_absent envAbsent 7 0 (by omega) rfl,
    wfdLoop_absent envAbsent 7 5 (by omega) rfl,
    wfdLoop_stop envAbsent 7 10 (by omega)]
  exact ⟨rfl, rfl⟩

/-- C2 (amended): if no poll ever observes a `decision` field,
`wait_for_decision` returns `none`, the flag file does not exist
afterward, and the call returns no earlier than the timeout and at most
4 seconds after it; it returns at exactly the timeout whenever the
timeout is a multiple of the 5-second poll period and no poll round hit
an unreadable file. -/
theorem wait_timeout_returns_none (env : Nat → FileView) (T : Nat)
    (hnd : ∀ t b, env t ≠ .record (some b)) :
    (wait_for_decision env T).result = none ∧
    (wait_for_decision env T).fileAfter = false ∧
    T ≤ (wait_for_decision env T).retTime ∧
    (wait_for_decision env T).retTime ≤ T + 4 ∧
    ((5 ∣ T ∧ ∀ t, env t ≠ .unreadable) →
      (wait_for_decision env T).retTime = T) := by
  have h1 := wfd_nodecision env T hnd 0
  have h2 := wfd_nodecision_time env T hnd 0 (Nat.zero_le T)
  refine ⟨h1.1, h1.2, h2.1, h2.2, ?_⟩
  rintro ⟨hdvd, hur⟩
  exact wfd_nodecision_exact env T hnd hur hdvd 0 (Nat.zero_le T) ⟨0, rfl⟩

theorem wait_timeout_returns_none_witness :
    (wait_for_decision envAbsent 10).result = none ∧
    (wait_for_decision envAbsent 10).fileAfter = false ∧
    10 ≤ (wait_for_decision envAbsent 10).retTime ∧
    (wait_for_decision envAbsent 10).retTime ≤ 14 ∧
    (wait_for_decision envAbsent 10).retTime = 10 := by
  have h := wait_timeout_returns_none envAbsent 10
    (fun t b => by simp [envAbsent])
  exact ⟨h.1, h.2.1, h.2.2.1, h.2.2.2.1,
    h.2.2.2.2 ⟨⟨2, rfl⟩, fun t => by simp [envAbsent]⟩⟩

/-- C7: a poll round that finds the flag file present but malformed or
unreadable is treated as not-yet-decided: the call behaves exactly as if
it re-polled one second later (so it retries), and in particular it does
not delete the file at that round and propagates no error. -/
theorem wait_unreadable_poll_retries (env : Nat → FileView) (T t : Nat)
    (h : t < T) (hv : env t = .unreadable) :
    wfdLoop env T t = wfdLoop env T (t + 1) ∧
      t ∉ (wfdLoop env T t).removes := by
  refine ⟨wfdLoop_unreadable env T t h hv, ?_⟩
  rw [wfdLoop_unreadable env T t h hv]
  have hge := wfd_retTime_ge env T (t + 1)
  rcases wfd_removes_shape env T (t + 1) with hr | hr <;> rw [hr] <;> simp
  omega

/-- Environment in which every read of the flag file raises. -/
def envUnreadable : Nat → FileView := fun _ => .unreadable

theorem wait_unreadable_poll_retries_witness :
    wfdLoop envUnreadable 3 0 = wfdLoop envUnreadable 3 1 ∧
      0 ∉ (wfdLoop envUnreadable 3 0).removes :=
  wait_unreadable_poll_retries envUnreadable 3 0 (by omega) rfl

/-- A `callback_query` of an inbound Telegram update: the sender
identifier, the button action identifier (`callback_data`), and the
query identifier used only for the acknowledgement call. -/
structure CallbackQuery where
  fromId : Nat
  data : String
  queryId : Nat
deriving DecidableEq

/-- An inbound Telegram update, reduced to the only part the handler
inspects: an optional `callback_query`. -/
structure Update where
  callback : Option CallbackQuery
deriving DecidableEq

/-- Parsed content of a flag file: either a JSON object whose optional
`decision` field is given, or content on which `json.load` raises. -/
inductive FlagContent where
  | parsed (decision : Option Bool)
  | malformed
deriving DecidableEq

/-- The two flag files of the program (`demo_flags.json` and
`approval_flags.json`); `none` means the file does not exist. -/
structure FlagFS where
  demoFile : Option FlagContent
  approvalFile : Option FlagContent
deriving DecidableEq

/-- The handler `process_telegram_update`: ignore updates without a
`callback_query`; ignore senders other than the configured
`ADMIN_USER_ID`; map `run_demo`/`skip_demo` to the demo flag file and
the four approve/reject actions to the approval flag file, any other
action to no file; then, only if the selected file exists, reload it,
set its `decision` field and rewrite it in place.  A malformed existing
file makes `json.load` raise, modelled as `Except.error`.  The trailing
`answerCallbackQuery` network call touches no flag file and is not
modelled. -/
def process_telegram_update (adminId : Nat) (u : Update) (fs : FlagFS) :
    Except Unit FlagFS :=
  match u.callback with
  | none => .ok fs
  | some cb =>
    if cb.fromId ≠ adminId then .ok fs
    else
      let sel : Option (Bool × Bool) :=
        if cb.data = "run_demo" ∨ cb.data = "skip_demo" then
          some (true, cb.data = "run_demo")
        else if cb.data = "approve_demo" ∨ cb.data = "reject_demo" ∨
            cb.data = "approve_upload" ∨ cb.data = "reject_upload" then
          some (false, cb.data.startsWith "approve")
        else none
      match sel with
      | none => .ok fs
      | some (isDemo, d) =>
        match (if isDemo then fs.demoFile else fs.approvalFile) with
        | none => .ok fs
        | some .malformed => .error ()
        | some (.parsed _) =>
          if isDemo then .ok (FlagFS.mk (some (.parsed (some d))) fs.approvalFile)
          else .ok (FlagFS.mk fs.demoFile (some (.parsed (some d))))

/-- C3: an inbound button-click event whose sender is not the configured
authorized user leaves both flag files unchanged (the handler returns
before selecting any file). -/
theorem unauthorized_sender_no_mutation (adminId : Nat) (u : Update)
    (fs : FlagFS) (cb : CallbackQuery)
    (hcb : u.callback = some cb) (hne : cb.fromId ≠ adminId) :
    process_telegram_update adminId u fs = .ok fs := by
  unfold process_telegram_update
  rw [hcb]
  simp [hne]

theorem unauthorized_sender_no_mutation_witness :
    process_telegram_update 42
      (Update.mk (some (CallbackQuery.mk 7 "approve_upload" 1)))
      (FlagFS.mk none (some (.parsed none))) =
      .ok (FlagFS.mk none (some (.parsed none))) :=
  unauthorized_sender_no_mutation 42
    (Update.mk (some (CallbackQuery.mk 7 "approve_upload" 1)))
    (FlagFS.mk none (some (.parsed none)))
    (CallbackQuery.mk 7 "approve_upload" 1) rfl (by decide)

/-- C4: an inbound button-click event whose action identifier is none of
the six recognized identifiers leaves both flag files unchanged,
whatever the sender. -/
theorem unrecognized_action_no_mutation (adminId : Nat) (u : Update)
    (fs : FlagFS) (cb : CallbackQuery)
    (hcb : u.callback = some cb)
    (h1 : cb.data ≠ "run_demo") (h2 : cb.data ≠ "skip_demo")
    (h3 : cb.data ≠ "approve_demo") (h4 : cb.data ≠ "reject_demo")
    (h5 : cb.data ≠ "approve_upload") (h6 : cb.data ≠ "reject_upload") :
    process_telegram_update adminId u fs = .ok fs := by
  unfold process_telegram_update
  rw [hcb]
  by_cases ha : cb.fromId ≠ adminId <;> simp [ha, h1, h2, h3, h4, h5, h6]

theorem unrecognized_action_no_mutation_witness :
    process_telegram_update 42
      (Update.mk (some (CallbackQuery.mk 42 "hello" 1)))
      (FlagFS.mk (some (.parsed none)) (some (.parsed none))) =
      .ok (FlagFS.mk (some (.parsed none)) (some (.parsed none))) :=
  unrecognized_action_no_mutation 42
    (Update.mk (some (CallbackQuery.mk 42 "hello" 1)))
    (FlagFS.mk (some (.parsed none)) (some (.parsed none)))
    (CallbackQuery.mk 42 "hello" 1) rfl
    (by decide) (by decide) (by decide) (by decide) (by decide) (by decide)

/-- C10: an authorized button-click with a recognized action identifier
that arrives while the corresponding flag file does not exist writes
nothing: the handler neither creates the flag file nor mutates any
file. -/
theorem no_outstanding_request_no_write (adminId : Nat) (u : Update)
    (fs : FlagFS) (cb : CallbackQuery)
    (hcb : u.callback = some cb) (hauth : cb.fromId = adminId)
    (hcase :
      ((cb.data = "run_demo" ∨ cb.data = "skip_demo") ∧ fs.demoFile = none) ∨
      ((cb.data = "approve_demo" ∨ cb.data = "reject_demo" ∨
        cb.data = "approve_upload" ∨ cb.data = "reject_upload") ∧
        fs.approvalFile = none)) :
    process_telegram_update adminId u fs = .ok fs := by
  unfold process_telegram_update
  rw [hcb]
  rcases hcase with ⟨hd, hfile⟩ | ⟨hd, hfile⟩
  · rcases hd with hd | hd <;> simp [hauth, hd, hfile]
  · rcases hd with hd | hd | hd | hd <;> simp [hauth, hd, hfile]

theorem no_outstanding_request_no_write_witness :
    process_telegram_update 42
      (Update.mk (some (CallbackQuery.mk 42 "approve_upload" 1)))
      (FlagFS.mk (some (.parsed none)) none) =
      .ok (FlagFS.mk (some (.parsed none)) none) :=
  no_outstanding_request_no_write 42
    (Update.mk (some (CallbackQuery.mk 42 "approve_upload" 1)))
    (FlagFS.mk (some (.parsed none)) none)
    (CallbackQuery.mk 42 "approve_upload" 1) rfl rfl
    (Or.inr ⟨by decide, rfl⟩)

/-- Removal of one path from a set of files, modelled as its indicator
function. -/
def fsRemove (fs : String → Bool) (p : String) : String → Bool :=
  fun q => if q = p then false else fs q

/-- `upload_reel(path, ...)`: the body either returns `True` (upload and
credit comment succeeded, all their own errors swallowed) or `False`
(`clip_upload` raised and the `except` branch reported it); `uploadOk`
is that externally determined outcome.  The `finally` branch removes the
candidate file if it exists, in every case. -/
def upload_reel (uploadOk : Bool) (p : String) (fs : String → Bool) :
    Bool × (String → Bool) :=
  (uploadOk, if fs p then fsRemove fs p else fs)

/-- C5: whether the upload succeeds or fails, after `upload_reel` the
candidate file at the given path no longer exists, and no other file is
touched. -/
theorem upload_consumes_input (uploadOk : Bool) (p : String)
    (fs : String → Bool) :
    (upload_reel uploadOk p fs).2 p = false ∧
    ∀ q, q ≠ p → (upload_reel uploadOk p fs).2 q = fs q := by
  constructor
  · unfold upload_reel fsRemove
    cases hfp : fs p <;> simp [hfp]
  · intro q hq
    unfold upload_reel fsRemove
    cases hfp : fs p <;> simp [hfp, hq]

/-- A two-file pool used to instantiate the upload theorem. -/
def fsTwoReels : String → Bool :=
  fun q => (q == "a.mp4") || (q == "b.mp4")

theorem upload_consumes_input_witness :
    (upload_reel true "a.mp4" fsTwoReels).2 "a.mp4" = false ∧
    (upload_reel true "a.mp4" fsTwoReels).2 "b.mp4" = fsTwoReels "b.mp4" :=
  ⟨(upload_consumes_input true "a.mp4" fsTwoReels).1,
   (upload_consumes_input true "a.mp4" fsTwoReels).2 "b.mp4" (by decide)⟩

/-- Externally visible actions of the decide-and-post job. -/
inductive Ev where
  | refreshJob
  | approvalRequest
  | uploadAttempt
  | notifyRejected
  | notifyTimeout
deriving DecidableEq

/-- Test used on directory entries by the jobs. -/
def isMp4 (f : String) : Bool := f.endsWith ".mp4"

/-- Tail of `scheduled_job` once a candidate is available: send the
approval request, write the empty approval flag file, wait on it with a
1800-second timeout, then upload on `True`, notify rejection on `False`
and notify timeout on `None`. -/
def approvalPhase (env : Nat → FileView) : List Ev :=
  Ev.approvalRequest ::
    (match (wait_for_decision env 1800).result with
     | some true => [Ev.uploadAttempt]
     | some false => [Ev.notifyRejected]
     | none => [Ev.notifyTimeout])

/-- `scheduled_job`: list the `.mp4` candidates; if none, invoke
`daily_download_job` (the `Ev.refreshJob` action, whose effect on the
pool is the externally supplied `poolR`), re-list, and return if the
pool is still empty; otherwise run the approval phase on a randomly
chosen candidate. -/
def scheduled_job (pool0 poolR : List String) (env : Nat → FileView) :
    List Ev :=
  if (pool0.filter isMp4).isEmpty then
    if (poolR.filter isMp4).isEmpty then [Ev.refreshJob]
    else Ev.refreshJob :: approvalPhase env
  else approvalPhase env

theorem refresh_not_in_approvalPhase (env : Nat → FileView) :
    Ev.refreshJob ∉ approvalPhase env := by
  unfold approvalPhase
  rcases hres : (wait_for_decision env 1800).result with _ | b
  · simp
  · cases b <;> simp

/-- C6: when the decide-and-post job finds zero `.mp4` candidates it
invokes the refresh exactly once, and when the refresh also yields zero
candidates the job performs nothing else: no approval request, no
upload, no second refresh. -/
theorem empty_pool_single_refresh (pool0 poolR : List String)
    (env : Nat → FileView) (h0 : pool0.filter isMp4 = []) :
    (scheduled_job pool0 poolR env).count Ev.refreshJob = 1 ∧
    (poolR.filter isMp4 = [] →
      scheduled_job pool0 poolR env = [Ev.refreshJob]) := by
  have hnot : Ev.refreshJob ∉ approvalPhase env :=
    refresh_not_in_approvalPhase env
  constructor
  · unfold scheduled_job
    rw [h0]
    by_cases hR : (poolR.filter isMp4).isEmpty <;>
      simp [hR, List.count_cons, List.count_eq_zero.mpr hnot]
  · intro hR
    unfold scheduled_job
    rw [h0, hR]
    simp

theorem empty_pool_single_refresh_witness :
    (scheduled_job [] [] envAbsent).count Ev.refreshJob = 1 ∧
    scheduled_job [] [] envAbsent = [Ev.refreshJob] := by
  have h := empty_pool_single_refresh [] [] envAbsent rfl
  exact ⟨h.1, h.2 rfl⟩

/-- Outcome of one login attempt in `robust_login`: success (via the
saved session or fresh credentials), a checkpoint challenge (sends one
Telegram notification and gives up immediately), or any other failure
(only logged, next attempt follows). -/
inductive AttemptRes where
  | success
  | checkpoint
  | failure
deriving DecidableEq

/-- `robust_login` over the outcomes of its successive attempts (at most
`max_retries` of them): returns whether login succeeded and how many
Telegram notifications the function itself sent. -/
def robust_login : List AttemptRes → Bool × Nat
  | [] => (false, 0)
  | .success :: _ => (true, 0)
  | .checkpoint :: _ => (false, 1)
  | .failure :: rest => robust_login rest

/-- Process-level outcome of a code path: whether the process exits,
with which code, and how many Telegram notifications were sent on the
path. -/
structure ProcOutcome where
  exits : Bool
  exitCode : Nat
  notifications : Nat
deriving DecidableEq

/-- The login gate of the `__main__` block: on login failure it sends
one final notification and exits with code 1; on success the process
continues. -/
def startup_login_gate (atts : List AttemptRes) : ProcOutcome :=
  if (robust_login atts).1 then ProcOutcome.mk false 0 (robust_login atts).2
  else ProcOutcome.mk true 1 ((robust_login atts).2 + 1)

/-- `daily_download_job`: on login success it refreshes the pool (the
download sends `downloadMsgs` notifications of its own); on login
failure it sends one skip notification and returns - the process keeps
running in both cases. -/
def daily_download_job (atts : List AttemptRes) (downloadMsgs : Nat) :
    ProcOutcome :=
  if (robust_login atts).1 then
    ProcOutcome.mk false 0 ((robust_login atts).2 + downloadMsgs)
  else ProcOutcome.mk false 0 ((robust_login atts).2 + 1)

/-- C8 counterexample: a login failure inside `daily_download_job` is
not fatal - after all three attempts fail, the job sends its skip
notification and the process keeps running, contradicting the claim
that authentication failure always exits the process. -/
theorem login_failure_not_always_fatal :
    (robust_login [AttemptRes.failure, .failure, .failure]).1 = false ∧
    (daily_download_job [AttemptRes.failure, .failure, .failure] 0).exits =
      false ∧
    (daily_download_job [AttemptRes.failure, .failure, .failure] 0).notifications =
      1 :=
  ⟨rfl, rfl, rfl⟩

/-- C8 (amended): when `robust_login` fails after its bounded retries,
the startup gate sends one final notification (beyond any checkpoint
notification the login itself sent) and exits with code 1, while the
same failure inside `daily_download_job` sends one skip notification
and does not exit the process. -/
theorem login_failure_behavior (atts : List AttemptRes) (dl : Nat)
    (hfail : (robust_login atts).1 = false) :
    (startup_login_gate atts).exits = true ∧
    (startup_login_gate atts).exitCode = 1 ∧
    (startup_login_gate atts).notifications = (robust_login atts).2 + 1 ∧
    (daily_download_job atts dl).exits = false ∧
    (daily_download_job atts dl).notifications = (robust_login atts).2 + 1 := by
  unfold startup_login_gate daily_download_job
  simp [hfail]

theorem login_failure_behavior_witness :
    (startup_login_gate [AttemptRes.failure, .failure, .failure]).exits = true ∧
    (startup_login_gate [AttemptRes.failure, .failure, .failure]).exitCode = 1 ∧
    (startup_login_gate [AttemptRes.failure, .failure, .failure]).notifications =
      (robust_login [AttemptRes.failure, .failure, .failure]).2 + 1 ∧
    (daily_download_job [AttemptRes.failure, .failure, .failure] 0).exits =
      false ∧
    (daily_download_job [AttemptRes.failure, .failure, .failure] 0).notifications =
      (robust_login [AttemptRes.failure, .failure, .failure]).2 + 1 :=
  login_failure_behavior [AttemptRes.failure, .failure, .failure] 0 rfl

/-- File creation in the reels folder: `yt-dlp -o filename` writes the
file, a no-op presence-wise if the name is already there. -/
def fsAddFile (fs : List String) (n : String) : List String :=
  if n ∈ fs then fs else fs ++ [n]

/-- `download_reels` when the client is logged in: first every entry of
the reels folder is removed, then each successfully downloaded candidate
file is created; a not-logged-in call returns immediately without
touching the folder.  `cands` lists the chosen reels as (target
filename, whether `yt-dlp` succeeded); the returned flag is `True` iff
some reel was found and some download succeeded. -/
def download_reels (loggedIn : Bool) (fs : List String)
    (cands : List (String × Bool)) : Bool × List String :=
  if loggedIn then
    ((!cands.isEmpty) && cands.any (fun c => c.2),
      cands.foldl (fun acc c => if c.2 then fsAddFile acc c.1 else acc)
        (List.foldl (fun acc n => acc.erase n) fs fs))
  else (false, fs)

theorem foldl_erase_self (l : List String) :
    List.foldl (fun acc n => acc.erase n) l l = [] := by
  induction l with
  | nil => rfl
  | cons a t ih =>
    show List.foldl (fun acc n => acc.erase n) ((a :: t).erase a) t = []
    rw [List.erase_cons_head]
    exact ih

theorem mem_fsAddFile (acc : List String) (n f : String) :
    f ∈ fsAddFile acc n ↔ f ∈ acc ∨ f = n := by
  unfold fsAddFile
  by_cases hn : n ∈ acc
  · rw [if_pos hn]
    exact ⟨Or.inl, fun h => h.elim id (fun he => he ▸ hn)⟩
  · rw [if_neg hn]
    simp [List.mem_append]

theorem mem_download_fold (cands : List (String × Bool)) :
    ∀ acc f,
      (f ∈ cands.foldl
          (fun acc c => if c.2 then fsAddFile acc c.1 else acc) acc) ↔
        f ∈ acc ∨ f ∈ (cands.filter (fun c => c.2)).map (fun c => c.1) := by
  induction cands with
  | nil =>
    intro acc f
    simp
  | cons c t ih =>
    intro acc f
    cases hc : c.2
    · simp only [List.foldl_cons, hc, Bool.false_eq_true, if_false,
        List.filter_cons, ih]
    · simp only [List.foldl_cons, hc, if_true, List.filter_cons, ih,
        mem_fsAddFile, List.map_cons, List.mem_cons]
      tauto

/-- C9: a logged-in refresh of the candidate pool first empties the
reels folder and then creates the downloaded files, so afterwards the
pool holds exactly the successfully downloaded candidates, whatever it
held before. -/
theorem refresh_replaces_pool (fs : List String)
    (cands : List (String × Bool)) (f : String) :
    f ∈ (download_reels true fs cands).2 ↔
      f ∈ (cands.filter (fun c => c.2)).map (fun c => c.1) := by
  unfold download_reels
  rw [if_pos rfl]
  show (f ∈ cands.foldl (fun acc c => if c.2 then fsAddFile acc c.1 else acc)
      (List.foldl (fun acc n => acc.erase n) fs fs)) ↔ _
  rw [foldl_erase_self, mem_download_fold cands [] f]
  simp

end Bot
